import Mathlib

/-!
Verification of the gonk firmware's core logic against its specification.

Shallow embedding notes.

* `f32` values are modelled by `FVal`: either NaN or an exact rational.
  Arithmetic on finite values is exact rational arithmetic (the spec and the
  claims under test concern the algorithmic structure, windowing, sentinel and
  classification behaviour, not binary rounding); NaN propagates through
  arithmetic and makes every ordered comparison false, as in IEEE 754, which
  is the behaviour the threshold guards in `logic.rs` rely on.
* Machine integers in the sensor compensation path (`hardware.rs`) are
  modelled by `Int` (the i32 intermediates provably stay far from overflow at
  the reference input, which the conformance theorem checks explicitly);
  Rust's arithmetic shift right on i32 is `Int.shiftRight`, which floors.
* Effectful task bodies (`main.rs`, `buttons.rs`) are embedded as pure
  functions from the results of their external calls (sensor read, radio
  operations, GPIO levels) to an explicit trace of the actions they perform,
  plus the successor state; a `.unwrap()` on a failed result is modelled as
  `none` (the task dies by panic).
-/

/-- Model of `f32`: NaN or an exact rational value. -/
inductive FVal where
  | nan : FVal
  | val : ℚ → FVal
deriving DecidableEq

namespace FVal

/-- IEEE-style addition: NaN propagates, finite values add exactly. -/
def add : FVal → FVal → FVal
  | val a, val b => val (a + b)
  | _, _ => nan

/-- IEEE-style division: NaN propagates, finite values divide exactly
(no caller below divides by zero). -/
def div : FVal → FVal → FVal
  | val a, val b => val (a / b)
  | _, _ => nan

/-- IEEE-style `<`: any comparison involving NaN is false. -/
def lt : FVal → FVal → Bool
  | val a, val b => decide (a < b)
  | _, _ => false

instance : Add FVal := ⟨add⟩
instance : Zero FVal := ⟨val 0⟩

theorem add_def (x y : FVal) : x + y = add x y := rfl

theorem zero_def : (0 : FVal) = val 0 := rfl

protected theorem add_assoc (x y z : FVal) : x + y + z = x + (y + z) := by
  cases x <;> cases y <;> cases z <;> simp [add_def, add] <;> ring

protected theorem add_comm (x y : FVal) : x + y = y + x := by
  cases x <;> cases y <;> simp [add_def, add] <;> ring

protected theorem zero_add (x : FVal) : 0 + x = x := by
  cases x <;> simp [add_def, zero_def, add]

protected theorem add_zero (x : FVal) : x + 0 = x := by
  cases x <;> simp [add_def, zero_def, add]

instance : AddCommMonoid FVal where
  add_assoc := FVal.add_assoc
  zero_add := FVal.zero_add
  add_zero := FVal.add_zero
  add_comm := FVal.add_comm
  nsmul := nsmulRec

end FVal

/-!
`AppLogic`, from `src/logic.rs`: a five-slot array of optional readings and a
write cursor. The Rust array `[Option<f32>; 5]` is modelled as a `List` whose
length is provably always 5.
-/

/-- Application state, from `struct AppLogic` in `src/logic.rs`. -/
structure AppLogic where
  temperature_readings : List (Option FVal)
  reading_index : Nat
deriving DecidableEq

namespace AppLogic

/-- `AppLogic::new`, from `src/logic.rs`. -/
def new : AppLogic :=
  { temperature_readings := List.replicate 5 none, reading_index := 0 }

/-- `AppLogic::record_temperature`, from `src/logic.rs`: overwrite the cursor
slot and advance the cursor modulo the array length. -/
def record_temperature (a : AppLogic) (temp : FVal) : AppLogic :=
  { temperature_readings := a.temperature_readings.set a.reading_index (some temp),
    reading_index := (a.reading_index + 1) % a.temperature_readings.length }

/-- `AppLogic::average_temperature`, from `src/logic.rs`: fold over the slots
accumulating the sum and count of the filled ones; `none` when the count is
zero, else the sum divided by the count. -/
def average_temperature (a : AppLogic) : Option FVal :=
  let sc := a.temperature_readings.foldl
    (fun acc reading =>
      match reading with
      | some temp => (acc.1 + temp, acc.2 + 1)
      | none => acc)
    ((0 : FVal), (0 : Nat))
  if sc.2 = 0 then none else some (sc.1.div (FVal.val sc.2))

/-- `AppLogic::temperature_status`, from `src/logic.rs`: guard chain of `<`
comparisons on the average. -/
def temperature_status (a : AppLogic) : String :=
  match a.average_temperature with
  | some temp =>
      if temp.lt (FVal.val 10) then "Cold"
      else if temp.lt (FVal.val 20) then "Cool"
      else if temp.lt (FVal.val 25) then "Comfortable"
      else if temp.lt (FVal.val 30) then "Warm"
      else "Hot"
  | none => "No data"

end AppLogic

/-!
Machinery for the rolling-window characterisation of the five-slot reading
history (claim about `record_temperature` / `average_temperature`).
-/

/-- Record a whole list of temperatures in order, starting from a given state. -/
def recordAll (a : AppLogic) (ts : List FVal) : AppLogic :=
  ts.foldl AppLogic.record_temperature a

/-- The most recent `min 5 n` samples of `ts`, in insertion order. -/
def window (ts : List FVal) : List FVal :=
  ts.drop (ts.length - 5)

/-- Closed form of the slot array after recording `ts` from a fresh state:
during warm-up the first `n` slots are filled in order; once full, the slots
hold the window rotated by the cursor position. -/
def slotsSpec (ts : List FVal) : List (Option FVal) :=
  if ts.length < 5 then ts.map some ++ List.replicate (5 - ts.length) none
  else ((window ts).drop (5 - ts.length % 5)).map some
    ++ ((window ts).take (5 - ts.length % 5)).map some

theorem window_length (ts : List FVal) : (window ts).length = min 5 ts.length := by
  simp only [window, List.length_drop]
  omega

theorem slotsSpec_length (ts : List FVal) : (slotsSpec ts).length = 5 := by
  by_cases h : ts.length < 5 <;>
    simp only [slotsSpec, h, if_true, if_false, List.length_append, List.length_map,
      List.length_replicate, List.length_drop, List.length_take, window_length] <;>
    omega

theorem set_append_left_length {α : Type _} (l₁ l₂ : List α) (a : α) :
    (l₁ ++ l₂).set l₁.length a = l₁ ++ l₂.set 0 a := by
  induction l₁ with
  | nil => simp
  | cons x xs ih => simp [List.set_cons_succ, ih]

theorem set_append_of_eq_length {α : Type _} (l₁ l₂ : List α) (a : α) (n : Nat)
    (h : n = l₁.length) : (l₁ ++ l₂).set n a = l₁ ++ l₂.set 0 a := by
  rw [h, set_append_left_length]

theorem set_zero_of_ne_nil {α : Type _} (l : List α) (a : α) (h : l ≠ []) :
    l.set 0 a = a :: l.tail := by
  cases l with
  | nil => exact absurd rfl h
  | cons x xs => rfl

/-- Writing the next sample into the cursor slot takes the closed form for
`ts` to the closed form for `ts ++ [t]`. -/
theorem slotsSpec_set (ts : List FVal) (t : FVal) :
    (slotsSpec ts).set (ts.length % 5) (some t) = slotsSpec (ts ++ [t]) := by
  by_cases h : ts.length < 5
  · -- warm-up: the cursor slot is the first `none`
    have hn : ts.length % 5 = ts.length := Nat.mod_eq_of_lt h
    have hrep : 5 - ts.length = (4 - ts.length) + 1 := by omega
    rw [slotsSpec, if_pos h, hn,
      set_append_of_eq_length _ _ _ _ (by simp), hrep,
      List.replicate_succ, List.set_cons_zero]
    by_cases h1 : ts.length + 1 < 5
    · -- still warming up
      rw [slotsSpec, if_pos (by simpa using h1)]
      simp only [List.map_append, List.map_cons, List.map_nil, List.length_append,
        List.length_cons, List.length_nil]
      have : 5 - (ts.length + 1) = 4 - ts.length := by omega
      simp [this]
    · -- the buffer becomes exactly full: cursor wraps to 0
      have h5 : ts.length = 4 := by omega
      have hlen : (ts ++ [t]).length = 5 := by simp [h5]
      rw [slotsSpec, if_neg (by omega)]
      have hw : window (ts ++ [t]) = ts ++ [t] := by
        simp [window, hlen]
      have hr : (ts ++ [t]).length % 5 = 0 := by omega
      rw [hw, hr]
      have hdrop : (ts ++ [t]).drop (5 - 0) = [] := by
        apply List.drop_eq_nil_of_le
        omega
      have htake : (ts ++ [t]).take (5 - 0) = ts ++ [t] := by
        apply List.take_of_length_le
        omega
      rw [hdrop, htake]
      simp [h5]
  · -- full buffer: the cursor slot holds the oldest sample of the window
    have h5 : 5 ≤ ts.length := by omega
    set n := ts.length with hn
    set r := n % 5 with hr
    have hr5 : r < 5 := Nat.mod_lt _ (by omega)
    have hw5 : (window ts).length = 5 := by rw [window_length]; omega
    have hA : (((window ts).drop (5 - r)).map some).length = r := by
      simp [hw5]
      omega
    have hBne : ((window ts).take (5 - r)).map some ≠ [] := by
      have : (((window ts).take (5 - r)).map some).length = 5 - r := by
        rw [List.length_map, List.length_take, hw5]
        omega
      intro hcon
      rw [hcon] at this
      simp at this
      omega
    rw [slotsSpec, if_neg h, ← hr,
      set_append_of_eq_length _ _ _ _ hA.symm,
      set_zero_of_ne_nil _ _ hBne]
    -- the new window drops the oldest sample and appends the new one
    have hw' : window (ts ++ [t]) = (window ts).drop 1 ++ [t] := by
      rw [window, window]
      simp only [List.length_append, List.length_cons, List.length_nil]
      rw [List.drop_append_eq_append_drop]
      have h1 : n + 1 - 5 - ts.length = 0 := by omega
      rw [← hn, h1, List.drop_drop]
      have h2 : n - 5 + 1 = n + 1 - 5 := by omega
      simp [h2]
    have hwd1 : ((window ts).drop 1).length = 4 := by
      simp [hw5]
    have htail : (((window ts).take (5 - r)).map some).tail
        = (((window ts).drop 1).take (4 - r)).map some := by
      rw [← List.drop_one, ← List.map_drop, List.drop_take]
      have : 5 - r - 1 = 4 - r := by omega
      rw [this]
    rw [htail]
    by_cases hr4 : r < 4
    · -- cursor does not wrap
      have hrsucc : (ts ++ [t]).length % 5 = r + 1 := by
        simp only [List.length_append, List.length_cons, List.length_nil]
        omega
      rw [slotsSpec, if_neg (by simp; omega), hrsucc, hw']
      have hdrop : ((window ts).drop 1 ++ [t]).drop (5 - (r + 1))
          = (window ts).drop (5 - r) ++ [t] := by
        rw [List.drop_append_eq_append_drop, List.drop_drop, hwd1]
        have e1 : 1 + (5 - (r + 1)) = 5 - r := by omega
        have e2 : 5 - (r + 1) - 4 = 0 := by omega
        rw [e1, e2]
        simp
      have htake2 : ((window ts).drop 1 ++ [t]).take (5 - (r + 1))
          = ((window ts).drop 1).take (4 - r) := by
        rw [List.take_append_eq_append_take, hwd1]
        have e1 : 5 - (r + 1) - 4 = 0 := by omega
        have e2 : 5 - (r + 1) = 4 - r := by omega
        rw [e1, e2]
        simp
      rw [hdrop, htake2]
      simp
    · -- cursor wraps: the rotated form closes up into insertion order
      have hr4' : r = 4 := by omega
      have hrsucc : (ts ++ [t]).length % 5 = 0 := by
        simp only [List.length_append, List.length_cons, List.length_nil]
        omega
      rw [slotsSpec, if_neg (by simp; omega), hrsucc, hw']
      have hwlen' : ((window ts).drop 1 ++ [t]).length = 5 := by
        rw [List.length_append, hwd1]
        rfl
      have hdrop : ((window ts).drop 1 ++ [t]).drop (5 - 0) = [] := by
        apply List.drop_eq_nil_of_le
        omega
      have htake2 : ((window ts).drop 1 ++ [t]).take (5 - 0)
          = (window ts).drop 1 ++ [t] := by
        apply List.take_of_length_le
        omega
      rw [hdrop, htake2, hr4']
      have e1 : (5 : Nat) - 4 = 1 := by omega
      have e2 : (4 : Nat) - 4 = 0 := by omega
      rw [e1, e2]
      simp

/-- After recording `ts` from a fresh state, the slot array is `slotsSpec ts`
and the cursor is `ts.length % 5`. -/
theorem recordAll_new (ts : List FVal) :
    recordAll AppLogic.new ts =
      { temperature_readings := slotsSpec ts, reading_index := ts.length % 5 } := by
  induction ts using List.reverseRecOn with
  | nil => rfl
  | append_singleton ts t ih =>
      have hstep : recordAll AppLogic.new (ts ++ [t])
          = AppLogic.record_temperature (recordAll AppLogic.new ts) t := by
        rw [recordAll, recordAll, List.foldl_append]
        rfl
      rw [hstep, ih, AppLogic.record_temperature]
      simp only [AppLogic.mk.injEq]
      refine ⟨slotsSpec_set ts t, ?_⟩
      rw [slotsSpec_length]
      simp only [List.length_append, List.length_cons, List.length_nil]
      omega

/-- The sum/count fold of `average_temperature` computes the sum and the
number of the filled slots. -/
theorem foldl_sumCount (l : List (Option FVal)) (s : FVal) (c : Nat) :
    l.foldl (fun acc reading =>
      match reading with
      | some temp => (acc.1 + temp, acc.2 + 1)
      | none => acc) (s, c)
    = (s + (l.filterMap id).sum, c + (l.filterMap id).length) := by
  induction l generalizing s c with
  | nil => simp
  | cons x xs ih =>
      cases x with
      | none => simp [List.foldl_cons, ih]
      | some v =>
          simp only [List.foldl_cons, ih, List.filterMap_cons, id, List.sum_cons,
            List.length_cons, Prod.mk.injEq]
          constructor
          · rw [add_assoc]
          · omega

/-- Closed form of `average_temperature` in terms of the filled slots. -/
theorem average_temperature_eq (a : AppLogic) :
    a.average_temperature =
      (if (a.temperature_readings.filterMap id).length = 0 then none
       else some ((a.temperature_readings.filterMap id).sum.div
         (FVal.val ((a.temperature_readings.filterMap id).length)))) := by
  rw [AppLogic.average_temperature]
  simp only [foldl_sumCount, zero_add, Nat.zero_add]

theorem filterMap_slotsSpec (ts : List FVal) :
    (slotsSpec ts).filterMap id =
      if ts.length < 5 then ts
      else (window ts).drop (5 - ts.length % 5) ++ (window ts).take (5 - ts.length % 5) := by
  by_cases h : ts.length < 5 <;>
    simp [slotsSpec, h, ← List.map_drop, ← List.map_take]

theorem filterMap_slotsSpec_length (ts : List FVal) :
    ((slotsSpec ts).filterMap id).length = min 5 ts.length := by
  rw [filterMap_slotsSpec]
  by_cases h : ts.length < 5
  · rw [if_pos h]
    omega
  · rw [if_neg h]
    have hw5 : (window ts).length = 5 := by rw [window_length]; omega
    rw [List.length_append, List.length_drop, List.length_take, hw5]
    omega

theorem filterMap_slotsSpec_sum (ts : List FVal) :
    ((slotsSpec ts).filterMap id).sum = (window ts).sum := by
  rw [filterMap_slotsSpec]
  by_cases h : ts.length < 5
  · rw [if_pos h]
    have : window ts = ts := by
      rw [window]
      have : ts.length - 5 = 0 := by omega
      rw [this, List.drop_zero]
    rw [this]
  · rw [if_neg h]
    have hperm : ((window ts).drop (5 - ts.length % 5)
        ++ (window ts).take (5 - ts.length % 5)).Perm (window ts) := by
      have := @List.perm_append_comm _
        ((window ts).drop (5 - ts.length % 5))
        ((window ts).take (5 - ts.length % 5))
      rw [List.take_append_drop] at this
      exact this
    exact hperm.sum_eq

/-- C1: after any sequence of `record_temperature` calls starting from a fresh
`AppLogic`, `average_temperature` returns `none` iff zero samples were
recorded; otherwise it returns the sum of the most recent `min 5 n` samples
(the window, oldest evicted first) divided by their count, so during warm-up
the divisor is the number of filled slots, not 5. -/
theorem average_temperature_rolling_window (ts : List FVal) :
    ((recordAll AppLogic.new ts).average_temperature = none ↔ ts = []) ∧
    (ts ≠ [] → (recordAll AppLogic.new ts).average_temperature
      = some ((window ts).sum.div (FVal.val (min 5 ts.length)))) := by
  rw [recordAll_new, average_temperature_eq]
  simp only [filterMap_slotsSpec_length, filterMap_slotsSpec_sum]
  by_cases hts : ts = []
  · subst hts
    simp
  · have h0 : ts.length ≠ 0 := fun hc => hts (List.length_eq_zero.mp hc)
    have hmin : ¬ min 5 ts.length = 0 := by omega
    simp [hmin, hts]

/-- C1 witness: recording 20 then 30 gives the average 25. -/
theorem average_temperature_rolling_window_witness :
    (([FVal.val 20, FVal.val 30] : List FVal) ≠ []) ∧
    (recordAll AppLogic.new [FVal.val 20, FVal.val 30]).average_temperature
      = some (FVal.val 25) := by
  have h := (average_temperature_rolling_window [FVal.val 20, FVal.val 30]).2 (by simp)
  refine ⟨by simp, ?_⟩
  rw [h]
  norm_num [window, FVal.add_def, FVal.add, FVal.div, FVal.zero_def]

/-- C7: `temperature_status` classifies the average with thresholds 10, 20,
25, 30 in inclusive-lower/exclusive-upper bands, returns the no-data status
iff the average is `none`, and every finite average falls in exactly one of
the five bands (the five iffs below are exhaustive and mutually exclusive for
any finite `q`). -/
theorem temperature_status_bands (a : AppLogic) :
    (a.temperature_status = "No data" ↔ a.average_temperature = none) ∧
    (∀ q : ℚ, a.average_temperature = some (FVal.val q) →
      ((a.temperature_status = "Cold" ↔ q < 10) ∧
       (a.temperature_status = "Cool" ↔ 10 ≤ q ∧ q < 20) ∧
       (a.temperature_status = "Comfortable" ↔ 20 ≤ q ∧ q < 25) ∧
       (a.temperature_status = "Warm" ↔ 25 ≤ q ∧ q < 30) ∧
       (a.temperature_status = "Hot" ↔ 30 ≤ q))) := by
  constructor
  · cases h : a.average_temperature with
    | none => simp [AppLogic.temperature_status, h]
    | some t =>
        simp only [AppLogic.temperature_status, h]
        split_ifs <;> simp
  · intro q hq
    simp only [AppLogic.temperature_status, hq, FVal.lt, decide_eq_true_eq]
    split_ifs with h1 h2 h3 h4
    all_goals refine ⟨?_, ?_, ?_, ?_, ?_⟩
    all_goals first
      | (simp_all; done)
      | (simp_all; intros; linarith)
      | (intros; linarith)
      | linarith

/-- C7 witness: one recorded sample of 22.5 gives the Comfortable band. -/
theorem temperature_status_bands_witness :
    (AppLogic.new.record_temperature (FVal.val (45 / 2))).average_temperature
      = some (FVal.val (45 / 2)) ∧
    ((AppLogic.new.record_temperature (FVal.val (45 / 2))).temperature_status
      = "Comfortable" ↔ 20 ≤ (45 / 2 : ℚ) ∧ (45 / 2 : ℚ) < 25) := by
  have havg : (AppLogic.new.record_temperature (FVal.val (45 / 2))).average_temperature
      = some (FVal.val (45 / 2)) := by
    simp only [AppLogic.new, AppLogic.record_temperature, AppLogic.average_temperature]
    norm_num [FVal.add_def, FVal.add, FVal.div, FVal.zero_def, List.replicate, List.foldl]
  exact ⟨havg, ((temperature_status_bands _).2 (45 / 2) havg).2.2.1⟩

/-- C10: a NaN average makes every threshold guard false, so the status falls
through to the Hot branch — not to No data or any other band. -/
theorem temperature_status_nan (a : AppLogic)
    (h : a.average_temperature = some FVal.nan) :
    a.temperature_status = "Hot" := by
  simp [AppLogic.temperature_status, h, FVal.lt]

/-- C10 witness: recording a single NaN sample yields a NaN average and the
Hot status. -/
theorem temperature_status_nan_witness :
    (AppLogic.new.record_temperature FVal.nan).average_temperature
      = some FVal.nan ∧
    (AppLogic.new.record_temperature FVal.nan).temperature_status = "Hot" :=
  ⟨rfl, temperature_status_nan _ rfl⟩

/-!
Text rendering. The Rust code formats through `core::fmt` (an external
collaborator, not part of this repository); the spec's contract for it is
`"<value 1dp><unit> <status>"` in a fixed 32-byte buffer with deterministic
truncation. Rendered text is modelled as `List Char` (one byte per char: all
output here is ASCII).
-/

/-- Decimal digits of `n`, most significant first; structural recursion on a
fuel bound so that it evaluates by kernel reduction. -/
def natDigitsAux (fuel n : Nat) : List Char :=
  match fuel with
  | 0 => []
  | fuel + 1 =>
      if n < 10 then [Char.ofNat (48 + n)]
      else natDigitsAux fuel (n / 10) ++ [Char.ofNat (48 + n % 10)]

def natDigits (n : Nat) : List Char :=
  natDigitsAux (n + 1) n

/-- Digits of `m` left-padded with zeros to `p` places. -/
def padDigits (p m : Nat) : List Char :=
  List.replicate (p - (natDigits m).length) '0' ++ natDigits m

/-- Modelled from the spec: the standard formatter `{:.p}` (external to this
repository) renders `"<value to p decimal places>"`; a finite value is
rendered as its decimal rounding to `p` fractional digits, NaN as `"NaN"`. -/
def renderFixed (prec : Nat) : FVal → List Char
  | FVal.nan => ['N', 'a', 'N']
  | FVal.val q =>
      let scaled : ℤ := ⌊q * (10 : ℚ) ^ prec + 1 / 2⌋
      let mag := scaled.natAbs
      (if scaled < 0 then ['-'] else [])
        ++ natDigits (mag / 10 ^ prec)
        ++ (if prec = 0 then [] else '.' :: padDigits prec (mag % 10 ^ prec))

/-- `AppLogic::format_temperature`, from `src/logic.rs`: renders
`"<temp 1dp>C <status>"` into a 32-byte `heapless::String`; the bounded
buffer is modelled by truncating the rendered text to 32 bytes. -/
def AppLogic.format_temperature (a : AppLogic) (temp : FVal) : List Char :=
  (renderFixed 1 temp ++ 'C' :: ' ' :: a.temperature_status.toList).take 32

/-- C9: `format_temperature` always returns at most 32 bytes, truncating
deterministically, and whenever the full rendering fits the buffer it is
exactly the value at one decimal place, the unit, and the status word. -/
theorem format_temperature_bounded (a : AppLogic) (temp : FVal) :
    (a.format_temperature temp).length ≤ 32 ∧
    ((renderFixed 1 temp).length + 2 + a.temperature_status.toList.length ≤ 32 →
      a.format_temperature temp
        = renderFixed 1 temp ++ 'C' :: ' ' :: a.temperature_status.toList) := by
  constructor
  · rw [AppLogic.format_temperature]
    rw [List.length_take]
    omega
  · intro h
    rw [AppLogic.format_temperature]
    apply List.take_of_length_le
    simp only [List.length_append, List.length_cons]
    omega

theorem average_single_45_2 :
    (AppLogic.new.record_temperature (FVal.val (45 / 2))).average_temperature
      = some (FVal.val (45 / 2)) := by
  simp only [AppLogic.new, AppLogic.record_temperature, AppLogic.average_temperature]
  norm_num [FVal.add_def, FVal.add, FVal.div, FVal.zero_def, List.replicate, List.foldl]

theorem status_single_45_2 :
    (AppLogic.new.record_temperature (FVal.val (45 / 2))).temperature_status
      = "Comfortable" := by
  rw [AppLogic.temperature_status, average_single_45_2]
  norm_num [FVal.lt]

/-- C9 witness: after recording 22.5, formatting 22.5 renders
`"22.5C Comfortable"` in full (17 of the 32 bytes), containing the one-decimal
value and the status word. -/
theorem format_temperature_bounded_witness :
    ((renderFixed 1 (FVal.val (45 / 2))).length + 2
      + (AppLogic.new.record_temperature
          (FVal.val (45 / 2))).temperature_status.toList.length ≤ 32) ∧
    ((AppLogic.new.record_temperature (FVal.val (45 / 2))).format_temperature
        (FVal.val (45 / 2))
      = "22.5C Comfortable".toList) := by
  have hrend : renderFixed 1 (FVal.val (45 / 2)) = "22.5".toList := by
    have hfl : (⌊(45 : ℚ) / 2 * 10 ^ 1 + 1 / 2⌋ : ℤ) = 225 := by norm_num
    simp only [renderFixed]
    rw [hfl]
    decide
  have hlen : (renderFixed 1 (FVal.val (45 / 2))).length + 2
      + (AppLogic.new.record_temperature
          (FVal.val (45 / 2))).temperature_status.toList.length ≤ 32 := by
    rw [hrend, status_single_45_2]
    decide
  have h := (format_temperature_bounded
    (AppLogic.new.record_temperature (FVal.val (45 / 2))) (FVal.val (45 / 2))).2 hlen
  refine ⟨hlen, ?_⟩
  rw [h, hrend, status_single_45_2]
  decide

/-!
`BMP280Hardware::read_temperature`, from `src/hardware.rs`: the Bosch
fixed-point temperature compensation. Rust `as i32` casts of the in-range
u8/u16/i16/20-bit quantities are modelled by `Int`; `>>` on i32 is an
arithmetic shift, i.e. `Int.shiftRight`, and `<<`/`|` on the nonnegative byte
assembly are the `Nat` shifts and or.
-/

/-- Temperature calibration coefficients, from `struct CalibrationData` in
`src/hardware.rs`: `dig_t1 : u16` (nonnegative), `dig_t2, dig_t3 : i16`. -/
structure CalibrationData where
  dig_t1 : Nat
  dig_t2 : Int
  dig_t3 : Int
deriving DecidableEq

namespace BMP280

/-- Assembly of the 20-bit raw ADC value from the three data registers,
from `src/hardware.rs`. -/
def adc_t_of_bytes (b0 b1 b2 : Nat) : Int :=
  (((b0 <<< 12) ||| (b1 <<< 4) ||| (b2 >>> 4) : Nat) : Int)

/-- The documented var1/var2/t_fine stages of the compensation formula,
from `src/hardware.rs` (operation order and truncations preserved). -/
def compensate (adc_t : Int) (calib : CalibrationData) : Int × Int × Int :=
  let var1 := (((adc_t >>> 3) - ((calib.dig_t1 : Int) <<< 1)) * calib.dig_t2) >>> 11
  let var2 := (((((adc_t >>> 4) - (calib.dig_t1 : Int))
      * ((adc_t >>> 4) - (calib.dig_t1 : Int))) >>> 12) * calib.dig_t3) >>> 14
  let t_fine := var1 + var2
  (var1, var2, t_fine)

/-- `BMP280Hardware::read_temperature`, from `src/hardware.rs`: error when no
calibration is loaded, otherwise the compensated temperature
`((t_fine * 5 + 128) >> 8) as f32 / 100.0` (the final f32 value is modelled
as an exact rational). -/
def read_temperature (calibration : Option CalibrationData) (b0 b1 b2 : Nat) :
    Except String ℚ :=
  match calibration with
  | none => Except.error "Sensor not initialized"
  | some calib =>
      let adc_t := adc_t_of_bytes b0 b1 b2
      let r := compensate adc_t calib
      Except.ok ((((r.2.2 * 5 + 128) >>> 8 : Int) : ℚ) / 100)

end BMP280

/-- C8: on the manufacturer's published reference vector (adc_T = 519888,
dig_T1 = 27504, dig_T2 = 26435, dig_T3 = −1000) the embedded fixed-point
sequence reproduces the published values integer for integer at every stage:
var1 = 128793, var2 = −371, t_fine = 128422, final temperature
((t_fine·5+128)>>8)/100 = 25.08 °C; the two products, the largest
intermediates, stay well inside i32, so the `Int` embedding coincides with
the i32 arithmetic of the source. -/
theorem bmp280_reference_vector :
    BMP280.adc_t_of_bytes 0x7E 0xED 0x00 = 519888 ∧
    BMP280.compensate 519888 ⟨27504, 26435, -1000⟩ = (128793, -371, 128422) ∧
    BMP280.read_temperature (some ⟨27504, 26435, -1000⟩) 0x7E 0xED 0x00
      = Except.ok (2508 / 100) ∧
    ((((519888 : Int) >>> 3) - ((27504 : Int) <<< 1)) * 26435 = 263768430
      ∧ (263768430 : Int) < 2 ^ 31) ∧
    ((((519888 : Int) >>> 4) - 27504) * (((519888 : Int) >>> 4) - 27504) = 24890121
      ∧ (24890121 : Int) < 2 ^ 31) := by
  have h1 : (((BMP280.compensate (BMP280.adc_t_of_bytes 0x7E 0xED 0x00)
      ⟨27504, 26435, -1000⟩).2.2 * 5 + 128) >>> 8 : Int) = 2508 := by decide
  have h2 : BMP280.read_temperature (some ⟨27504, 26435, -1000⟩) 0x7E 0xED 0x00
      = Except.ok (((((BMP280.compensate (BMP280.adc_t_of_bytes 0x7E 0xED 0x00)
          ⟨27504, 26435, -1000⟩).2.2 * 5 + 128) >>> 8 : Int) : ℚ) / 100) := rfl
  refine ⟨by decide, by decide, ?_, by decide, by decide⟩
  rw [h2, h1]
  norm_num

/-!
The shared model, from `src/model.rs`, and the acquisition-cycle writer
`update_model`, from `src/bin/main.rs`. A BME280 combined reading is the
`measurements` value whose fields the success branch copies; the I2C failure
is an abstract error value.
-/

/-- `struct Model`, from `src/model.rs`. -/
structure Model where
  temperature : FVal
  pressure : FVal
  humidity : FVal
  ip_address : List Char
deriving DecidableEq

/-- One combined sensor reading (the `measurements` of `bme280.read()`). -/
structure Measurements where
  temperature : FVal
  pressure : FVal
  humidity : FVal
deriving DecidableEq

/-- `update_model`, from `src/bin/main.rs`: on a successful read copy the
three measured fields into the model; on a read error write the −999.0
sentinel into all three. The IP field is untouched either way. -/
def update_model (m : Model) (reading : Except String Measurements) : Model :=
  match reading with
  | Except.ok measurements =>
      { m with
        humidity := measurements.humidity,
        pressure := measurements.pressure,
        temperature := measurements.temperature }
  | Except.error _ =>
      { m with
        humidity := FVal.val (-999),
        pressure := FVal.val (-999),
        temperature := FVal.val (-999) }

/-- C4: a failed read publishes the −999.0 sentinel into all three sensor
fields for that cycle, and a following successful read overwrites the
sentinel in all three with the measured values; the address field is never
touched by the acquisition path. -/
theorem update_model_sentinel (m : Model) (e : String) (meas : Measurements) :
    ((update_model m (Except.error e)).temperature = FVal.val (-999) ∧
     (update_model m (Except.error e)).pressure = FVal.val (-999) ∧
     (update_model m (Except.error e)).humidity = FVal.val (-999) ∧
     (update_model m (Except.error e)).ip_address = m.ip_address) ∧
    ((update_model (update_model m (Except.error e)) (Except.ok meas)).temperature
        = meas.temperature ∧
     (update_model (update_model m (Except.error e)) (Except.ok meas)).pressure
        = meas.pressure ∧
     (update_model (update_model m (Except.error e)) (Except.ok meas)).humidity
        = meas.humidity ∧
     (update_model (update_model m (Except.error e)) (Except.ok meas)).ip_address
        = m.ip_address) :=
  ⟨⟨rfl, rfl, rfl, rfl⟩, ⟨rfl, rfl, rfl, rfl⟩⟩

/-!
`update_display`, from `src/bin/main.rs`, embedded as the trace of display
and lock actions one frame performs, in program order. The source clears,
draws the title and separator line, then takes the model lock and — still
inside the lock scope — draws the three model-dependent text lines, releasing
the lock at the end of the block, just before returning.
-/

/-- One action of the display-render path. -/
inductive DisplayEvent where
  | lockAcquire
  | lockRelease
  | clearScreen
  | drawText (text : List Char) (x y : Int)
  | drawLine (x1 y1 x2 y2 : Int)
deriving DecidableEq

/-- Text of the temperature line, `heapless::format!("Temp: {:.2} C", ..)`. -/
def tempText (m : Model) : List Char :=
  "Temp: ".toList ++ renderFixed 2 m.temperature ++ " C".toList

/-- Text of the humidity line, `heapless::format!("Humidity: {:.2} %", ..)`. -/
def humidityText (m : Model) : List Char :=
  "Humidity: ".toList ++ renderFixed 2 m.humidity ++ " %".toList

/-- Text of the address line, `heapless::format!("IP: {}", ..)`. -/
def ipText (m : Model) : List Char :=
  "IP: ".toList ++ m.ip_address

/-- The actions of one `update_display` frame, from `src/bin/main.rs`, in
program order (y advances by the line height 10; the separator sits at
y + line_height / 2 = 15). -/
def update_display_trace (m : Model) : List DisplayEvent :=
  [DisplayEvent.clearScreen,
   DisplayEvent.drawText "Gonk Sensor Readings".toList 0 0,
   DisplayEvent.drawLine 0 15 127 15,
   DisplayEvent.lockAcquire,
   DisplayEvent.drawText (tempText m) 0 20,
   DisplayEvent.drawText (humidityText m) 0 30,
   DisplayEvent.drawText (ipText m) 0 40,
   DisplayEvent.lockRelease]

/-- Drawing operations: clear, text, line. -/
def is_draw : DisplayEvent → Bool
  | DisplayEvent.clearScreen => true
  | DisplayEvent.drawText _ _ _ => true
  | DisplayEvent.drawLine _ _ _ _ => true
  | _ => false

/-- Number of drawing operations issued while the lock is held (depth > 0). -/
def drawsWhileLocked : List DisplayEvent → Nat → Nat
  | [], _ => 0
  | DisplayEvent.lockAcquire :: rest, d => drawsWhileLocked rest (d + 1)
  | DisplayEvent.lockRelease :: rest, d => drawsWhileLocked rest (d - 1)
  | e :: rest, d =>
      (if is_draw e ∧ 0 < d then 1 else 0) + drawsWhileLocked rest d

/-- Lock depth at the end of a trace. -/
def lockDepth : List DisplayEvent → Nat → Nat
  | [], d => d
  | DisplayEvent.lockAcquire :: rest, d => lockDepth rest (d + 1)
  | DisplayEvent.lockRelease :: rest, d => lockDepth rest (d - 1)
  | _ :: rest, d => lockDepth rest d

/-- The model state at boot, from `src/bin/main.rs`. -/
def model0 : Model :=
  { temperature := FVal.val 0, pressure := FVal.val 0, humidity := FVal.val 0,
    ip_address := "UNKNOWN".toList }

/-- C2 counterexample: in the frame rendered from the boot state, three
drawing operations are issued while the SharedModel lock is held — drawing is
attempted while holding the lock, so the lock is not released before drawing. -/
theorem update_display_draws_under_lock :
    drawsWhileLocked (update_display_trace model0) 0 = 3 := by decide

/-- C2 amended: every frame acquires the lock exactly once and releases it
exactly once, with the lock free again at the end of the frame; the three
static draws (clear, title, separator) are issued before acquiring the lock,
and the three model-dependent text draws are issued while holding it. -/
theorem update_display_lock_trace (m : Model) :
    ((update_display_trace m).count DisplayEvent.lockAcquire = 1) ∧
    ((update_display_trace m).count DisplayEvent.lockRelease = 1) ∧
    (((update_display_trace m).filter is_draw).length = 6) ∧
    (drawsWhileLocked (update_display_trace m) 0 = 3) ∧
    (drawsWhileLocked ((update_display_trace m).takeWhile
        (fun e => !(e == DisplayEvent.lockAcquire))) 0 = 0) ∧
    (lockDepth (update_display_trace m) 0 = 0) :=
  ⟨rfl, rfl, rfl, rfl, rfl, rfl⟩

/-!
The `connection` task, from `src/bin/main.rs`, embedded as a step function on
the radio state. One step is one iteration of the task's loop. External call
results (configuration, radio start, scan, connect) come from an environment
record; a `.unwrap()` of a failed result makes the step return `none` (the
task dies by panic). The events record the calls, logs and timer delays the
iteration performs, in order.
-/

/-- Observable actions of one `connection` loop iteration. -/
inductive ConnEvent where
  | waitDisconnect
  | delayMs (n : Nat)
  | setConfigCall
  | startCall
  | scanCall
  | connectAttempt
  | logConnected
  | logConnectFailed
deriving DecidableEq

/-- Radio-controller state visible to the loop: `is_started()` and whether
`sta_state()` is Connected. -/
structure WifiState where
  started : Bool
  connected : Bool
deriving DecidableEq

/-- Results of the iteration's external calls. -/
structure ConnEnv where
  setConfigOk : Bool
  startOk : Bool
  scanOk : Bool
  connectOk : Bool
deriving DecidableEq

/-- The `match controller.connect_async().await` tail of the loop body: on
success log and become connected; on failure log and delay 5000 ms. -/
def connectAttemptResult (s : WifiState) (evs : List ConnEvent) (connectOk : Bool) :
    WifiState × List ConnEvent :=
  if connectOk then
    ({ s with connected := true }, evs ++ [ConnEvent.connectAttempt, ConnEvent.logConnected])
  else
    (s, evs ++ [ConnEvent.connectAttempt, ConnEvent.logConnectFailed, ConnEvent.delayMs 5000])

/-- One iteration of the `connection` loop, from `src/bin/main.rs`: if
connected, wait for the disconnect event then delay 5000 ms; if the radio is
not started, apply the client config, start it and scan — each result
unwrapped, so a failure is a panic (`none`); finally attempt to connect. -/
def connectionStep (s : WifiState) (env : ConnEnv) : Option (WifiState × List ConnEvent) :=
  let p := if s.connected
    then ({ s with connected := false }, [ConnEvent.waitDisconnect, ConnEvent.delayMs 5000])
    else (s, ([] : List ConnEvent))
  if p.1.started then
    some (connectAttemptResult p.1 p.2 env.connectOk)
  else
    if env.setConfigOk then
      if env.startOk then
        if env.scanOk then
          some (connectAttemptResult { p.1 with started := true }
            (p.2 ++ [ConnEvent.setConfigCall, ConnEvent.startCall, ConnEvent.scanCall])
            env.connectOk)
        else none
      else none
    else none

/-- Iterate the loop over a list of per-iteration environments, accumulating
the event trace; `none` as soon as one iteration panics. -/
def connectionRun (s : WifiState) (envs : List ConnEnv) :
    Option (WifiState × List ConnEvent) :=
  match envs with
  | [] => some (s, [])
  | env :: rest =>
      match connectionStep s env with
      | none => none
      | some (s1, evs) =>
          match connectionRun s1 rest with
          | none => none
          | some (s2, evs2) => some (s2, evs ++ evs2)

/-- Environment in which the connect attempt fails and everything else
succeeds. -/
def envConnectFail : ConnEnv :=
  { setConfigOk := true, startOk := true, scanOk := true, connectOk := false }

/-- Events of one failed connect round from the started state. -/
def retryEvs : List ConnEvent :=
  [ConnEvent.connectAttempt, ConnEvent.logConnectFailed, ConnEvent.delayMs 5000]

/-- Events of the first iteration from boot under a failing connect:
config/start/scan prologue, then a failed connect round. -/
def firstEvs : List ConnEvent :=
  [ConnEvent.setConfigCall, ConnEvent.startCall, ConnEvent.scanCall] ++ retryEvs

/-- C3 counterexample: with the radio not started and `set_config` failing,
the loop body returns `none` — the task panics on the `.unwrap()`; it does
not log-and-delay 5000 ms and does not re-enter the loop. -/
theorem connection_config_failure_panics :
    connectionStep ⟨false, false⟩ ⟨false, true, true, true⟩ = none := by decide

/-- C3 amended: while the radio is not started, a failure of applying the
client configuration or of starting the radio terminates the connectivity
task by panic (`unwrap`), with no logged retry and no 5000 ms delay; the
log-and-retry-after-5000 ms path exists only for connect failures. -/
theorem connection_start_failure_is_fatal (s : WifiState) (env : ConnEnv)
    (hs : s.started = false)
    (h : env.setConfigOk = false ∨ env.startOk = false) :
    connectionStep s env = none := by
  cases hc : s.connected <;> rcases h with h | h <;>
    simp [connectionStep, hs, hc, h]

/-- C3 witness: a failing radio start from the boot state panics the task. -/
theorem connection_start_failure_is_fatal_witness :
    connectionStep ⟨false, false⟩ ⟨true, false, true, true⟩ = none :=
  connection_start_failure_is_fatal ⟨false, false⟩ ⟨true, false, true, true⟩ rfl
    (Or.inr rfl)

/-- C6 counterexample: once the radio is started, an iteration with a failing
connect performs only a connect attempt, a failure log and the 5000 ms delay
— no start call and no scan call — and leaves the state unchanged, so with
the same environment every later iteration is identical: the Starting and
Scanning phases are never re-entered after a connect failure. -/
theorem connection_no_rescan_counterexample :
    connectionStep ⟨true, false⟩ envConnectFail = some (⟨true, false⟩, retryEvs) ∧
    ConnEvent.scanCall ∉ retryEvs ∧ ConnEvent.startCall ∉ retryEvs := by decide

theorem connection_run_started (m : Nat) :
    connectionRun ⟨true, false⟩ (List.replicate m envConnectFail)
      = some (⟨true, false⟩, (List.replicate m retryEvs).flatten) := by
  induction m with
  | zero => rfl
  | succ k ih =>
      have hstep : connectionStep ⟨true, false⟩ envConnectFail
          = some (⟨true, false⟩, retryEvs) := rfl
      rw [List.replicate_succ]
      simp only [connectionRun, hstep, ih, List.replicate_succ, List.flatten_cons]

/-- C6 amended: if the radio start succeeds and every connect attempt fails,
the retry loop never terminates and never panics: after any n ≥ 1 iterations
it has performed the one-off config/start/scan prologue followed by n failed
connect rounds (attempt, log, 5000 ms delay each), and it is back in the
started, disconnected state, ready to re-attempt Connecting — but it never
re-enters the Starting or Scanning phases after the first iteration. -/
theorem connection_retries_forever (n : Nat) (h : 0 < n) :
    connectionRun ⟨false, false⟩ (List.replicate n envConnectFail)
      = some (⟨true, false⟩, firstEvs ++ (List.replicate (n - 1) retryEvs).flatten) := by
  obtain ⟨k, rfl⟩ : ∃ k, n = k + 1 := ⟨n - 1, by omega⟩
  rw [List.replicate_succ]
  have hstep : connectionStep ⟨false, false⟩ envConnectFail
      = some (⟨true, false⟩, firstEvs) := rfl
  simp only [connectionRun, hstep, connection_run_started k, Nat.add_sub_cancel]

/-- C6 witness: two all-failing iterations run the prologue once and two
failed connect rounds, ending started and disconnected. -/
theorem connection_retries_forever_witness :
    (0 < 2) ∧
    connectionRun ⟨false, false⟩ (List.replicate 2 envConnectFail)
      = some (⟨true, false⟩, firstEvs ++ (List.replicate (2 - 1) retryEvs).flatten) :=
  ⟨by decide, connection_retries_forever 2 (by decide)⟩

/-!
`button_watcher`, from `src/bin/buttons.rs`, embedded as the trace of one
loop iteration (one falling-edge episode). The GPIO line level sampled after
the 50 ms debounce delay is the iteration's input: low (asserted, pull-up
wiring) means a real press.
-/

/-- Observable actions of one `button_watcher` loop iteration. -/
inductive ButtonEvent where
  | waitFallingEdge
  | debounceDelayMs (n : Nat)
  | sampleLevelLow (low : Bool)
  | pressEmitted
  | waitRisingEdge
  | releaseEmitted
deriving DecidableEq

/-- One iteration of the `button_watcher` loop, from `src/bin/buttons.rs`:
wait for a falling edge, delay 50 ms, sample the line; if still low, emit the
press message, wait for the rising edge, emit the release message, then delay
50 ms; if not low, do nothing more (noise). -/
def button_watcher_iteration (low_after_debounce : Bool) : List ButtonEvent :=
  [ButtonEvent.waitFallingEdge, ButtonEvent.debounceDelayMs 50,
   ButtonEvent.sampleLevelLow low_after_debounce]
  ++ (if low_after_debounce then
        [ButtonEvent.pressEmitted, ButtonEvent.waitRisingEdge,
         ButtonEvent.releaseEmitted, ButtonEvent.debounceDelayMs 50]
      else [])

/-- Whether a trace performs a debounce delay strictly between the rising
edge and the release event — the ordering the claim asserts. -/
def debounceBeforeRelease (tr : List ButtonEvent) : Bool :=
  match tr.dropWhile (fun e => !(e == ButtonEvent.waitRisingEdge)) with
  | [] => false
  | _ :: rest =>
      (rest.takeWhile (fun e => !(e == ButtonEvent.releaseEmitted))).any
        (fun e => e == ButtonEvent.debounceDelayMs 50)

/-- C5 counterexample: on a clean actuation the release message is emitted
immediately after the rising edge, and the 50 ms release debounce runs only
after the emission — there is no debounce delay between the rising edge and
the release event, contrary to the claimed order. -/
theorem button_release_before_debounce :
    button_watcher_iteration true
      = [ButtonEvent.waitFallingEdge, ButtonEvent.debounceDelayMs 50,
         ButtonEvent.sampleLevelLow true, ButtonEvent.pressEmitted,
         ButtonEvent.waitRisingEdge, ButtonEvent.releaseEmitted,
         ButtonEvent.debounceDelayMs 50] ∧
    debounceBeforeRelease (button_watcher_iteration true) = false := by decide

/-- C5 amended: per falling-edge episode, a clean actuation (line still low
after the 50 ms debounce) emits exactly one press event and exactly one
release event, the press after the debounced resample and the release
immediately after the rising edge, with the 50 ms release debounce performed
after the emission, before returning to Idle; a transition shorter than the
debounce window (line back high at the sample) emits zero events. -/
theorem button_watcher_events (low_after_debounce : Bool) :
    ((button_watcher_iteration low_after_debounce).count ButtonEvent.pressEmitted
      = if low_after_debounce then 1 else 0) ∧
    ((button_watcher_iteration low_after_debounce).count ButtonEvent.releaseEmitted
      = if low_after_debounce then 1 else 0) ∧
    (low_after_debounce = true →
      button_watcher_iteration low_after_debounce
        = [ButtonEvent.waitFallingEdge, ButtonEvent.debounceDelayMs 50,
           ButtonEvent.sampleLevelLow true, ButtonEvent.pressEmitted,
           ButtonEvent.waitRisingEdge, ButtonEvent.releaseEmitted,
           ButtonEvent.debounceDelayMs 50]) ∧
    (low_after_debounce = false →
      button_watcher_iteration low_after_debounce
        = [ButtonEvent.waitFallingEdge, ButtonEvent.debounceDelayMs 50,
           ButtonEvent.sampleLevelLow false]) := by
  cases low_after_debounce
  · refine ⟨rfl, rfl, ?_, ?_⟩
    · intro h
      exact nomatch h
    · intro h
      rfl
  · refine ⟨rfl, rfl, ?_, ?_⟩
    · intro h
      rfl
    · intro h
      exact nomatch h

/-- C5 witness: the clean-actuation case of the amended claim at the concrete
input `true`. -/
theorem button_watcher_events_witness :
    (button_watcher_iteration true).count ButtonEvent.pressEmitted = 1 ∧
    (button_watcher_iteration true).count ButtonEvent.releaseEmitted = 1 :=
  ⟨((button_watcher_events true).1).trans (by decide),
   ((button_watcher_events true).2.1).trans (by decide)⟩

/-- C2 amended witness: the lock/draw structure at the boot-state frame. -/
theorem update_display_lock_trace_witness :
    (update_display_trace model0).count DisplayEvent.lockAcquire = 1 ∧
    drawsWhileLocked (update_display_trace model0) 0 = 3 :=
  ⟨(update_display_lock_trace model0).1,
   (update_display_lock_trace model0).2.2.2.1⟩

/-- C4 witness: a failed cycle from the boot state writes the sentinel, and
the following successful cycle overwrites it with the measured temperature. -/
theorem update_model_sentinel_witness :
    (update_model model0 (Except.error "I2C read error")).temperature
      = FVal.val (-999) ∧
    (update_model (update_model model0 (Except.error "I2C read error"))
        (Except.ok ⟨FVal.val 25, FVal.val 1000, FVal.val 50⟩)).temperature
      = FVal.val 25 :=
  ⟨(update_model_sentinel model0 "I2C read error"
      ⟨FVal.val 25, FVal.val 1000, FVal.val 50⟩).1.1,
   (update_model_sentinel model0 "I2C read error"
      ⟨FVal.val 25, FVal.val 1000, FVal.val 50⟩).2.1⟩
